import Mathlib

/-
Verification development for the flex-living-reviews repository.

The repository is a review-management application: it normalizes guest
reviews, persists them, aggregates per-listing KPIs, and exposes an
approval workflow plus public read endpoints.  This file gives a shallow
embedding in Lean of the pure data-shaping cores of those operations and
proves (or refutes) the specified properties about them.

Modelling conventions:
- JavaScript strings are modelled as `List Char`.
- JavaScript numbers are modelled as `Rat` (the code performs only
  addition, division, comparison and `Math.round`, and the properties at
  issue are about which values enter a computation, not about IEEE-754
  rounding, which is idealized as exact rational arithmetic).
- JavaScript `null` is modelled as `Option.none`.
- Database tables and the DynamoDB approval store are modelled as
  explicit finite structures (functions into `Option`, or association
  lists mirroring JavaScript `Record` objects); the handlers are
  modelled as pure functions of the data they fetch, with explicit
  boolean parameters for the success or failure of each fallible write.
-/

namespace FlexReviews

/-! ## Shared utilities: packages/shared/src/slug.ts -/

/-- Character class of the regexes in `slugify`: the characters kept by
`.replace(/[^a-z0-9-]/g, '')`, i.e. `a`-`z` (97-122), `0`-`9` (48-57)
and `-` (45). -/
def isSlugChar (c : Char) : Bool :=
  (97 ≤ c.toNat && c.toNat ≤ 122) || (48 ≤ c.toNat && c.toNat ≤ 57) || c.toNat == 45

/-- JavaScript whitespace: the code points matched by the regex class
`\s` and removed by `String.prototype.trim` (ECMA-262 WhiteSpace and
LineTerminator): TAB, LF, VT, FF, CR, SP, NBSP, U+1680, U+2000-U+200A,
U+2028, U+2029, U+202F, U+205F, U+3000, U+FEFF. -/
def isWs (c : Char) : Bool :=
  c.toNat == 9 || c.toNat == 10 || c.toNat == 11 || c.toNat == 12 || c.toNat == 13 ||
  c.toNat == 32 || c.toNat == 160 || c.toNat == 5760 ||
  (8192 ≤ c.toNat && c.toNat ≤ 8202) ||
  c.toNat == 8232 || c.toNat == 8233 || c.toNat == 8239 || c.toNat == 8287 ||
  c.toNat == 12288 || c.toNat == 65279

/-- Model of `String.prototype.trim`: remove leading and trailing
JavaScript whitespace. -/
def jsTrim (l : List Char) : List Char :=
  (l.dropWhile isWs).rdropWhile isWs

/-- Model of `.replace(/\s+/g, '-')`: every maximal run of whitespace
becomes a single hyphen. -/
def wsToHyphen : List Char → List Char
  | [] => []
  | [c] => if isWs c then ['-'] else [c]
  | a :: b :: rest =>
    if isWs a && isWs b then wsToHyphen (b :: rest)
    else (if isWs a then '-' else a) :: wsToHyphen (b :: rest)

/-- Model of the third `.replace` of `slugify` (global regex "-+" to
"-"): every maximal run of hyphens becomes a single hyphen. -/
def collapseHyphens : List Char → List Char
  | [] => []
  | [c] => [c]
  | a :: b :: rest =>
    if a == '-' && b == '-' then collapseHyphens (b :: rest)
    else a :: collapseHyphens (b :: rest)

/-- Model of the fourth `.replace` of `slugify` (global regex
"^-+|-+$" to the empty string): drop the leading and the trailing run
of hyphens. -/
def stripHyphenEnds (l : List Char) : List Char :=
  (l.dropWhile (· == '-')).rdropWhile (· == '-')

/-- Model of `slugify` from packages/shared/src/slug.ts: lowercase, trim,
whitespace runs to hyphens, strip characters outside `[a-z0-9-]`,
collapse hyphen runs, strip leading/trailing hyphens.
`String.prototype.toLowerCase` is modelled by `Char.toLower`; the two
agree on every character of the class `[a-z0-9-]`, which is all the
idempotence analysis below depends on. -/
def slugify (s : List Char) : List Char :=
  stripHyphenEnds (collapseHyphens
    ((wsToHyphen (jsTrim (s.map Char.toLower))).filter isSlugChar))

/-- Adjacent-pair relation left on a list after hyphen runs have been
collapsed: no two neighbouring characters are both hyphens. -/
def NoHH (a b : Char) : Prop := ¬(a = '-' ∧ b = '-')

/-! ## Shared utilities: packages/shared/src/date.ts -/

/-- Decimal digit, as matched by the regex class \d. -/
def isDigit (c : Char) : Bool := 48 ≤ c.toNat && c.toNat ≤ 57

/-- Numeric value of a decimal digit character. -/
def digitVal (c : Char) : Nat := c.toNat - 48

/-- Field tuple of a wall-clock timestamp.  Used both for the six
numeric groups extracted from the input string and for the UTC fields
of the instant the parser returns. -/
structure DateFields where
  year : Nat
  month : Nat
  day : Nat
  hour : Nat
  minute : Nat
  second : Nat
  deriving DecidableEq, Repr

/-- Combined model of the anchored format regex of
`parseHostawaySubmittedAt` (four digits, hyphen, two digits, hyphen,
two digits, space, two digits, colon, two digits, colon, two digits)
together with the subsequent split on space / hyphen / colon and the
`Number` conversion of each group.  On a string accepted by the regex
the split yields exactly the six digit groups, so fusing the two steps
is semantics-preserving. -/
def matchFormat : List Char → Option DateFields
  | [y1, y2, y3, y4, s1, mo1, mo2, s2, d1, d2, sp, h1, h2, c1, mi1, mi2, c2, se1, se2] =>
    if isDigit y1 && isDigit y2 && isDigit y3 && isDigit y4 &&
       s1 == '-' && isDigit mo1 && isDigit mo2 && s2 == '-' &&
       isDigit d1 && isDigit d2 && sp == ' ' &&
       isDigit h1 && isDigit h2 && c1 == ':' && isDigit mi1 && isDigit mi2 &&
       c2 == ':' && isDigit se1 && isDigit se2 then
      some
        { year := ((digitVal y1 * 10 + digitVal y2) * 10 + digitVal y3) * 10 + digitVal y4
          month := digitVal mo1 * 10 + digitVal mo2
          day := digitVal d1 * 10 + digitVal d2
          hour := digitVal h1 * 10 + digitVal h2
          minute := digitVal mi1 * 10 + digitVal mi2
          second := digitVal se1 * 10 + digitVal se2 }
    else none
  | _ => none

/-- Gregorian leap-year rule, as implemented by the ECMAScript Date
object. -/
def isLeapYear (y : Nat) : Bool := (y % 4 == 0 && y % 100 != 0) || y % 400 == 0

/-- Number of days in a month (month given as 1-12). -/
def daysInMonth (y m : Nat) : Nat :=
  if m == 2 then (if isLeapYear y then 29 else 28)
  else if m == 4 || m == 6 || m == 9 || m == 11 then 30 else 31

/-- ECMA-262 MakeFullYear, applied by `Date.UTC` to its year argument:
years 0 through 99 are interpreted as 1900 through 1999. -/
def makeFullYear (y : Nat) : Nat := if y ≤ 99 then 1900 + y else y

/-- Calendar normalization performed by `Date.UTC` on the inputs
reachable in `parseHostawaySubmittedAt` (month 1-12 passed as a 0-11
month index, day 1-31): a day count exceeding the month's length rolls
into the following month.  Returns the civil date
(`getUTCFullYear`, `getUTCMonth`+1, `getUTCDate`) of the instant. -/
def utcCivil (y m d : Nat) : Nat × Nat × Nat :=
  if d ≤ daysInMonth y m then (y, m, d)
  else if m == 12 then (y + 1, 1, d - 31)
  else (y, m + 1, d - daysInMonth y m)

/-- Error cases of `parseHostawaySubmittedAt`: regex mismatch, a field
outside its numeric range, or a round-trip (calendar validity) failure. -/
inductive DateErr where
  | badFormat
  | badRange
  | invalidDate
  deriving DecidableEq, Repr

/-- Body of `parseHostawaySubmittedAt` after a successful regex match:
the explicit range checks, the `Date.UTC` call and the round-trip
validation of the calendar date. -/
def parseChecked (f : DateFields) : Except DateErr DateFields :=
  if f.month < 1 ∨ 12 < f.month then .error .badRange
  else if f.day < 1 ∨ 31 < f.day then .error .badRange
  else if 23 < f.hour then .error .badRange
  else if 59 < f.minute then .error .badRange
  else if 59 < f.second then .error .badRange
  else if (utcCivil (makeFullYear f.year) f.month f.day).1 = f.year ∧
          (utcCivil (makeFullYear f.year) f.month f.day).2.1 = f.month ∧
          (utcCivil (makeFullYear f.year) f.month f.day).2.2 = f.day then
    .ok ⟨(utcCivil (makeFullYear f.year) f.month f.day).1,
         (utcCivil (makeFullYear f.year) f.month f.day).2.1,
         (utcCivil (makeFullYear f.year) f.month f.day).2.2,
         f.hour, f.minute, f.second⟩
  else .error .invalidDate

/-- Model of `parseHostawaySubmittedAt` from packages/shared/src/date.ts.
On success the function returns the UTC field tuple of the instant
denoted by the ISO string the code produces (`isNaN` can never fire for
these inputs: the timestamp is far inside the representable range, so
that guard is not modelled as a separate failure). -/
def parseHostawaySubmittedAt (s : List Char) : Except DateErr DateFields :=
  match matchFormat s with
  | none => .error .badFormat
  | some f => parseChecked f

/-- Range conditions stated by the specification for the six fields. -/
def claimInRange (f : DateFields) : Prop :=
  1 ≤ f.month ∧ f.month ≤ 12 ∧ 1 ≤ f.day ∧ f.day ≤ 31 ∧
  f.hour ≤ 23 ∧ f.minute ≤ 59 ∧ f.second ≤ 59

instance (f : DateFields) : Decidable (claimInRange f) := by
  unfold claimInRange; infer_instance

/-- Specification-side notion of a real calendar date for a field tuple
whose month is 1-12 and day is at least 1. -/
def realCalendarDate (f : DateFields) : Prop :=
  f.day ≤ daysInMonth f.year f.month

instance (f : DateFields) : Decidable (realCalendarDate f) := by
  unfold realCalendarDate; infer_instance

/-! ## Numeric model

JavaScript arithmetic on review ratings is idealized as exact rational
arithmetic; `Math.round` rounds half toward positive infinity. -/

/-- Model of `Math.round`: the greatest integer not above x + 1/2. -/
def jsRound (q : ℚ) : ℤ := ⌊q + 1 / 2⌋

/-- Rounding to two decimal places as written in the code:
`Math.round(x * 100) / 100`. -/
def round2 (q : ℚ) : ℚ := (jsRound (q * 100) : ℚ) / 100

/-- Specification-side average (the claim wording): the arithmetic
mean of the non-null values, null when there are none. -/
def specMeanNonNull (rs : List (Option ℚ)) : Option ℚ :=
  let xs := rs.filterMap id
  if xs.length > 0 then some (xs.sum / xs.length) else none

/-! ## Data model: packages/shared/src/types.ts and db/schema.sql -/

/-- NormalizedCategory from the shared types. -/
structure NormalizedCategory where
  key : String
  label : String
  rating : ℚ
  deriving DecidableEq, Repr

/-- NormalizedReview from the shared types (the canonical review). -/
structure NormalizedReview where
  reviewId : String
  source : String
  listingId : String
  listingName : String
  type : String
  status : String
  submittedAtISO : String
  guestName : String
  publicReview : String
  overallRating : Option ℚ
  categories : List NormalizedCategory
  deriving DecidableEq, Repr

/-- ListingKPIs from the shared types; the avgByCategory Record is an
association list. -/
structure ListingKPIs where
  reviewCount : Nat
  avgOverallRating : Option ℚ
  avgByCategory : List (String × ℚ)
  deriving DecidableEq, Repr

/-- ListingGroup from the shared types. -/
structure ListingGroup where
  listingId : String
  listingName : String
  kpis : ListingKPIs
  reviews : List NormalizedReview
  deriving DecidableEq, Repr

/-! ## apps/api/src/db/reviewsRepo.ts: queryListingKPIs aggregation -/

namespace ReviewsRepo

/-- Average-rating KPI of `queryListingKPIs` for one listing group.
The row loop pushes, in member order, each distinct review's non-null
overall rating into allRatings; the KPI is their mean, or null when
the listing has no rated review. -/
def avgOverallRating (reviews : List NormalizedReview) : Option ℚ :=
  let allRatings := reviews.filterMap (fun r => r.overallRating)
  if allRatings.length > 0 then some (allRatings.sum / allRatings.length)
  else none

end ReviewsRepo

/-! ## apps/api/src/handlers/reviewsHostaway.ts: computeListingGroups -/

namespace ReviewsHostaway

/-- Average-rating KPI of `computeListingGroups` for one listing group:
the mean of the non-null overall ratings, rounded to two decimals via
`Math.round(x * 100) / 100`, or null when no review is rated. -/
def avgOverallRating (reviews : List NormalizedReview) : Option ℚ :=
  let overallRatings := reviews.filterMap (fun r => r.overallRating)
  if overallRatings.length > 0 then
    some (round2 (overallRatings.sum / overallRatings.length))
  else none

end ReviewsHostaway

/-! ## Dashboard GET route (PostgreSQL-only variant of
apps/web/app/api/v1/dashboard/listings/route.ts) -/

/-- ReviewWithCategories row of the PostgreSQL-only dashboard route:
one reviews-table row joined with its categories; is_approved is the
tri-state approval column (null = pending). -/
structure PgReview where
  reviewId : String
  listingId : String
  listingName : String
  overallRating : Option ℚ
  submittedAt : String
  guestName : String
  reviewText : String
  categories : List (String × ℚ)
  isApproved : Option Bool
  deriving DecidableEq, Repr

namespace DashboardRoutePg

/-- approvedCount of the route's approval stats: member rows whose
is_approved is true. -/
def approvedCount (reviews : List PgReview) : Nat :=
  reviews.countP (fun r => r.isApproved == some true)

/-- rejectedCount of the route's approval stats: member rows whose
is_approved is false. -/
def rejectedCount (reviews : List PgReview) : Nat :=
  reviews.countP (fun r => r.isApproved == some false)

/-- pendingCount of the route's approval stats: the remainder
`reviews.length - approvedCount - rejectedCount` (JavaScript
subtraction, hence an integer). -/
def pendingCount (reviews : List PgReview) : Int :=
  (reviews.length : Int) - approvedCount reviews - rejectedCount reviews

/-- avgOverallRating of the route: `reduce((sum, r) => sum + r.overallRating, 0)`
over ALL member rows — a null rating coerces to 0 in JavaScript
addition — divided by the total member count; null only when the
group is empty. -/
def avgOverallRating (reviews : List PgReview) : Option ℚ :=
  if reviews.length > 0 then
    some ((reviews.map (fun r => r.overallRating.getD 0)).sum / reviews.length)
  else none

end DashboardRoutePg

/-! ## Dashboard Lambda handler (src/unnamed/part_011, DynamoDB
variant): approval stats and listing filters -/

namespace DashboardLambda

/-- approvedCount of the Lambda's approval stats:
`Object.values(approvals).filter(Boolean).length` over the listing's
whole approval-store map — every true entry counts, whether or not its
review id belongs to the listing's member reviews. -/
def approvedCount (approvals : List (String × Bool)) : Nat :=
  (approvals.filter (fun e => e.2)).length

/-- pendingCount of the Lambda's approval stats:
`totalReviews - approvedCount` (JavaScript subtraction, hence an
integer; there is no rejectedCount in this variant). -/
def pendingCount (totalReviews : Nat) (approvals : List (String × Bool)) : Int :=
  (totalReviews : Int) - approvedCount approvals

/-- minRating filter of the handler (step 3): a group is skipped iff a
minRating was supplied, the group's average is non-null, and the
average is strictly below the threshold. -/
def passesMinRating (minRating : Option ℚ) (g : ListingGroup) : Bool :=
  match minRating, g.kpis.avgOverallRating with
  | some mr, some a => decide (¬a < mr)
  | _, _ => true

/-- categoryKey filter of the handler (step 3): the group is kept only
when `avgByCategory[categoryKey]` is truthy (absent keys and a 0
average are falsy in JavaScript). -/
def passesCategory (categoryKey : Option String) (g : ListingGroup) : Bool :=
  match categoryKey with
  | none => true
  | some k =>
    match g.kpis.avgByCategory.lookup k with
    | some v => decide (v ≠ 0)
    | none => false

/-- Step-3 filtering of the handler over the listing groups returned
by queryListingKPIs. -/
def filterListings (minRating : Option ℚ) (categoryKey : Option String)
    (groups : List ListingGroup) : List ListingGroup :=
  groups.filter (fun g => passesMinRating minRating g && passesCategory categoryKey g)

end DashboardLambda

/-- Specification-side approval counters (claim wording): over a
listing's member review ids, the reviews whose recorded state is
true, false, or absent, looked up in the approval store. -/
def specApprovedCount (memberIds : List String) (store : List (String × Bool)) : Nat :=
  memberIds.countP (fun rid => store.lookup rid == some true)

/-- Specification-side rejected counter (claim wording). -/
def specRejectedCount (memberIds : List String) (store : List (String × Bool)) : Nat :=
  memberIds.countP (fun rid => store.lookup rid == some false)

/-- Specification-side pending counter (claim wording): member reviews
with no recorded state. -/
def specPendingCount (memberIds : List String) (store : List (String × Bool)) : Nat :=
  memberIds.countP (fun rid => store.lookup rid == none)

/-- Test fixture: a PostgreSQL review row with the given id, rating and
approval state. -/
def pgRev (rid : String) (rating : Option ℚ) (appr : Option Bool) : PgReview :=
  { reviewId := rid, listingId := "l1", listingName := "L1"
    overallRating := rating, submittedAt := "2024-01-01T00:00:00.000Z"
    guestName := "G", reviewText := "t", categories := [], isApproved := appr }

/-- Test fixture: a normalized review with the given id, listing and
rating. -/
def nRev (rid lid : String) (rating : Option ℚ) : NormalizedReview :=
  { reviewId := rid, source := "hostaway", listingId := lid, listingName := "L1"
    type := "guest", status := "published"
    submittedAtISO := "2024-01-01T00:00:00.000Z", guestName := "G"
    publicReview := "t", overallRating := rating, categories := [] }

/-! ## Public listings: apps/api/src/handlers/publicListings.ts and
apps/web/app/api/v1/public/listings/route.ts -/

/-- PublicListing entry of both public-listings endpoints. -/
structure PublicListing where
  listingId : String
  listingName : String
  approvedReviewCount : Nat
  avgRating : Option ℚ
  deriving DecidableEq, Repr

/-- Approved review ids computed by both public-listings endpoints
from a listing's approval-store map:
`Object.entries(approvals).filter((e) => e[1] === true).map((e) => e[0])`. -/
def approvedReviewIds (approvals : List (String × Bool)) : List String :=
  (approvals.filter (fun e => e.2)).map (fun e => e.1)

namespace PublicListingsLambda

/-- Public average rating of the Lambda handler: over the member
reviews whose id occurs in approvedReviewIds, the mean of the non-null
ratings rounded to two decimals, or null when no such review has a
rating. -/
def avgRating (reviews : List NormalizedReview)
    (approvals : List (String × Bool)) : Option ℚ :=
  let approvedReviews :=
    reviews.filter (fun r => (approvedReviewIds approvals).contains r.reviewId)
  let ratings := approvedReviews.filterMap (fun r => r.overallRating)
  if ratings.length > 0 then some (round2 (ratings.sum / ratings.length))
  else none

/-- Per-listing step of the Lambda handler: emit a public entry iff the
listing's approvedReviewIds list is non-empty; the entry carries the
store-derived approved count and the approved-only average. -/
def emitListing (store : String → List (String × Bool)) (g : ListingGroup) :
    Option PublicListing :=
  let ids := approvedReviewIds (store g.listingId)
  if ids.length > 0 then
    some { listingId := g.listingId, listingName := g.listingName
           approvedReviewCount := ids.length
           avgRating := avgRating g.reviews (store g.listingId) }
  else none

/-- Model of the Lambda handler body (step 2): one emission attempt per
listing group.  The final rating sort only reorders entries and the
per-listing store-failure catch (which skips a listing) is not taken in
this model, where every store read succeeds. -/
def handler (groups : List ListingGroup)
    (store : String → List (String × Bool)) : List PublicListing :=
  groups.filterMap (emitListing store)

end PublicListingsLambda

/-- Row of the listing_kpis PostgreSQL view read by the web
public-listings route. -/
structure KpiRow where
  listingId : String
  listingName : String
  totalReviews : Nat
  avgRating : Option ℚ
  deriving DecidableEq, Repr

/-- Average computed by the listing_kpis view (SQL from the repository
README: AVG(overall_rating) over ALL of the listing's review rows):
SQL AVG skips NULL inputs and returns NULL when every input is NULL. -/
def listingKpisAvg (ratings : List (Option ℚ)) : Option ℚ :=
  let xs := ratings.filterMap id
  if xs.length > 0 then some (xs.sum / xs.length) else none

namespace PublicListingsRoute

/-- Per-listing step of the web route: emit a public entry iff the
listing's approvedReviewIds list is non-empty; the entry passes the
view's listing-wide avgRating through unchanged. -/
def emitRow (store : String → List (String × Bool)) (row : KpiRow) :
    Option PublicListing :=
  let ids := approvedReviewIds (store row.listingId)
  if ids.length > 0 then
    some { listingId := row.listingId, listingName := row.listingName
           approvedReviewCount := ids.length, avgRating := row.avgRating }
  else none

/-- Model of the web route's GET body (step 3): one emission attempt
per listing_kpis row. -/
def GET (rows : List KpiRow) (store : String → List (String × Bool)) :
    List PublicListing :=
  rows.filterMap (emitRow store)

end PublicListingsRoute

/-- Specification-side public average (claim wording): the mean of
overallRating over the listing's approved member reviews only — those
whose id has a true entry in the approval store — and null if none of
them has a rating. -/
def specApprovedOnlyAvg (reviews : List NormalizedReview)
    (approvals : List (String × Bool)) : Option ℚ :=
  specMeanNonNull
    ((reviews.filter (fun r => approvals.contains (r.reviewId, true))).map
      (fun r => r.overallRating))

/-- Test fixture: listing_kpis row for a listing with two reviews rated
5 and 1 (listing-wide average 3). -/
def kpiRow1 : KpiRow :=
  { listingId := "l1", listingName := "L1", totalReviews := 2, avgRating := some 3 }

/-- Test fixture: the public entry the web route emits for `kpiRow1`
under a store approving only "hostaway:1". -/
def pub1 : PublicListing :=
  { listingId := "l1", listingName := "L1", approvedReviewCount := 1, avgRating := some 3 }

/-- Test fixture: a listing group with a single member review
"hostaway:1" rated 5. -/
def group1 : ListingGroup :=
  { listingId := "l1", listingName := "L1", kpis := ⟨1, some 5, []⟩,
    reviews := [nRev "hostaway:1" "l1" (some 5)] }

/-- Test fixture: an approval store whose only entry approves the
member review "hostaway:1" of every listing. -/
def store1 : String → List (String × Bool) := fun _ => [("hostaway:1", true)]

/-- Test fixture: an approval store whose only entry approves an id
that is not a member review of any listing. -/
def storeGhost : String → List (String × Bool) := fun _ => [("ghost", true)]

/-! ## Approval write path:
apps/web/app/api/v1/reviews/[reviewId]/approve/route.ts (POST) and the
approval Lambda handler (src/unnamed/part_012); stores from
apps/api/src/repos/approvalsRepo.ts and db/schema.sql -/

/-- Row of the reviews table (db/schema.sql); raw holds the full
normalized review stored as JSONB. -/
structure ReviewRow where
  reviewId : String
  source : String
  hostawayId : Option Nat
  listingId : String
  listingName : String
  type : String
  status : String
  submittedAt : String
  guestName : String
  publicReview : String
  overallRating : Option ℚ
  raw : NormalizedReview
  createdAt : Nat
  updatedAt : Nat
  deriving DecidableEq, Repr

/-- DynamoDB approval store: one tri-state entry per
(listingId, reviewId) composite key. -/
def ApprovalStore : Type := String × String → Option Bool

/-- PutItem on the approval store: overwrite the entry at
(listingId, reviewId). -/
def putApproval (store : ApprovalStore) (listingId reviewId : String)
    (isApproved : Bool) : ApprovalStore :=
  fun k => if k = (listingId, reviewId) then some isApproved else store k

/-- Row of the append-only review_approvals_audit table. -/
structure AuditRow where
  reviewId : String
  listingId : String
  isApproved : Bool
  actor : String
  deriving DecidableEq, Repr

/-- Responses of the approval endpoints, as distinguished by their
status codes and error messages: 200 with the confirmation payload,
400 for body validation and listing mismatch, 404 for an unknown
review, 500 for a failed store or audit write. -/
inductive ApiResp where
  | ok (reviewId listingId : String) (isApproved : Bool)
  | badRequest
  | notFound
  | mismatch
  | serverErr
  deriving DecidableEq, Repr

namespace ApproveRoute

/-- Steps 1-3 of the web route's POST handler after the review lookup
succeeded: listing-mismatch check, then the DynamoDB PutItem
(updateApprovalStatus) and the audit INSERT (recordApprovalAudit).
The two flags give the outcome of the fallible writes; a failed write
throws, which the route's catch turns into a 500 response with no
further writes. -/
def POSTvalidated (store : ApprovalStore) (audit : List AuditRow)
    (stateOk auditOk : Bool) (reviewId listingId : String)
    (isApproved : Bool) (review : ReviewRow) :
    ApiResp × ApprovalStore × List AuditRow :=
  if review.listingId ≠ listingId then (.mismatch, store, audit)
  else if stateOk = false then (.serverErr, store, audit)
  else if auditOk then
    (.ok reviewId listingId isApproved,
      putApproval store listingId reviewId isApproved,
      audit ++ [⟨reviewId, listingId, isApproved, "system"⟩])
  else (.serverErr, putApproval store listingId reviewId isApproved, audit)

/-- Model of the web route's POST handler.  Inputs are the reviews
table (getReviewById), the approval store and the audit log.  Body
validation (isApproved must be a boolean, listingId a non-empty
string) is modelled by the types plus the emptiness guard; the review
is then looked up and, if found, handed to `POSTvalidated`. -/
def POST (db : String → Option ReviewRow) (store : ApprovalStore)
    (audit : List AuditRow) (stateOk auditOk : Bool)
    (reviewId listingId : String) (isApproved : Bool) :
    ApiResp × ApprovalStore × List AuditRow :=
  if listingId = "" then (.badRequest, store, audit)
  else
    match db reviewId with
    | none => (.notFound, store, audit)
    | some review =>
      POSTvalidated store audit stateOk auditOk reviewId listingId isApproved review

end ApproveRoute

namespace ApproveLambda

/-- Model of the approval Lambda handler (src/unnamed/part_012).  The
handler validates only the request shape — reviewId present in the
path, listingId a non-whitespace string, isApproved a boolean — and
never reads the reviews table; it then writes the approval to DynamoDB
(setApproval; failure means a 500 response with nothing written) and
finally attempts the audit INSERT, whose failure is caught and
swallowed: the response is still ok and the approval stays written. -/
def handler (store : ApprovalStore) (audit : List AuditRow)
    (stateOk auditOk : Bool) (reviewId listingId : String)
    (isApproved : Bool) (actor : String) :
    ApiResp × ApprovalStore × List AuditRow :=
  if reviewId = "" then (.badRequest, store, audit)
  else if listingId.data.all isWs then (.badRequest, store, audit)
  else if stateOk = false then (.serverErr, store, audit)
  else
    (.ok reviewId listingId isApproved,
      putApproval store listingId reviewId isApproved,
      if auditOk then audit ++ [⟨reviewId, listingId, isApproved, actor⟩]
      else audit)

end ApproveLambda

/-! ## apps/api/src/db/reviewsRepo.ts: upsertReviews -/

/-- Relational store touched by upsertReviews: the reviews table keyed
by review_id and the review_categories table keyed by review_id. -/
structure Db where
  reviews : String → Option ReviewRow
  categories : String → List NormalizedCategory

/-- hostaway_id column value:
`parseInt(String(review.reviewId).split(':')[1])` for the hostaway
source, NULL otherwise.  parseInt of the second colon-separated
segment is modelled as its leading decimal digits (none when there is
no digit, matching NaN). -/
def hostawayIdOf (r : NormalizedReview) : Option Nat :=
  if r.source = "hostaway" then
    let seg := ((r.reviewId.data.dropWhile (fun c => !(c == ':'))).drop 1).takeWhile
      (fun c => !(c == ':'))
    let ds := seg.takeWhile isDigit
    if ds.length > 0 then some (ds.foldl (fun n c => n * 10 + digitVal c) 0)
    else none
  else none

/-- Row inserted for a review id not yet present. -/
def freshRow (now : Nat) (r : NormalizedReview) : ReviewRow :=
  { reviewId := r.reviewId, source := r.source, hostawayId := hostawayIdOf r,
    listingId := r.listingId, listingName := r.listingName, type := r.type,
    status := r.status, submittedAt := r.submittedAtISO,
    guestName := r.guestName, publicReview := r.publicReview,
    overallRating := r.overallRating, raw := r, createdAt := now,
    updatedAt := now }

/-- One iteration of the upsertReviews loop: INSERT .. ON CONFLICT
(review_id) DO UPDATE SET status, public_review, overall_rating, raw,
updated_at = NOW(), followed by replaceCategories (delete all rows for
the review, insert the new ones). -/
def upsertOne (now : Nat) (db : Db) (r : NormalizedReview) : Db :=
  { reviews := fun k =>
      if k = r.reviewId then
        some (match db.reviews r.reviewId with
          | none => freshRow now r
          | some old =>
            { old with
                status := r.status,
                publicReview := r.publicReview,
                overallRating := r.overallRating,
                raw := r,
                updatedAt := now })
      else db.reviews k
    categories := fun k =>
      if k = r.reviewId then r.categories else db.categories k }

/-- Model of upsertReviews: the loop over the batch inside one
transaction. -/
def upsertReviews (now : Nat) (db : Db) (reviews : List NormalizedReview) : Db :=
  reviews.foldl (upsertOne now) db

/-! ## Theorems

All definitions above are the shallow embedding of the repository;
everything below proves or refutes the specified properties about
them. -/

/-! ### Character-level facts -/

theorem toLower_eq_self_of_isSlugChar {c : Char} (h : isSlugChar c = true) :
    Char.toLower c = c := by
  simp only [isSlugChar, Bool.or_eq_true, Bool.and_eq_true, decide_eq_true_eq,
    beq_iff_eq] at h
  simp only [Char.toLower]
  rw [if_neg]
  omega

theorem not_ws_of_isSlugChar {c : Char} (h : isSlugChar c = true) :
    isWs c = false := by
  simp only [isSlugChar, Bool.or_eq_true, Bool.and_eq_true, decide_eq_true_eq,
    beq_iff_eq] at h
  simp only [isWs, Bool.or_eq_false_iff, Bool.and_eq_false_iff,
    beq_eq_false_iff_ne, ne_eq, decide_eq_false_iff_not, not_le, not_and]
  omega

/-! ### Fixed-point lemmas for each pipeline stage -/

theorem dropWhile_eq_self_of_none {p : Char → Bool} {l : List Char}
    (h : ∀ c ∈ l, p c = false) : l.dropWhile p = l := by
  cases l with
  | nil => rfl
  | cons a t =>
    rw [List.dropWhile_cons_of_neg]
    simp [h a (List.mem_cons_self a t)]

theorem rdropWhile_eq_self_of_none {p : Char → Bool} {l : List Char}
    (h : ∀ c ∈ l, p c = false) : l.rdropWhile p = l := by
  rw [List.rdropWhile_eq_self_iff]
  intro hl
  simp [h _ (List.getLast_mem hl)]

theorem wsToHyphen_eq_self {l : List Char} (h : ∀ c ∈ l, isWs c = false) :
    wsToHyphen l = l := by
  induction l with
  | nil => rfl
  | cons a t ih =>
    cases t with
    | nil =>
      simp only [wsToHyphen]
      simp [h a (by simp)]
    | cons b r =>
      have ha : isWs a = false := h a (by simp)
      have hrest : ∀ c ∈ b :: r, isWs c = false := fun c hc => h c (by simp [hc])
      simp only [wsToHyphen, ha, hrest b (by simp), Bool.false_and, if_neg]
      simp [ih hrest]

theorem collapseHyphens_subset : ∀ l : List Char, collapseHyphens l ⊆ l := by
  intro l
  induction l with
  | nil => simp [collapseHyphens]
  | cons a t ih =>
    cases t with
    | nil => simp [collapseHyphens]
    | cons b r =>
      by_cases hab : (a == '-' && b == '-') = true
      · simpa [collapseHyphens, hab] using List.Subset.trans ih (List.subset_cons_self _ _)
      · simp only [collapseHyphens, if_neg hab]
        exact List.cons_subset_cons a ih

theorem collapseHyphens_cons_head? (b : Char) (rest : List Char) :
    (collapseHyphens (b :: rest)).head? = some b := by
  induction rest generalizing b with
  | nil => rfl
  | cons c r ih =>
    by_cases hbc : (b == '-' && c == '-') = true
    · have hb : b = '-' := by
        rcases Bool.and_eq_true_iff.mp hbc with ⟨h1, h2⟩
        exact beq_iff_eq.mp h1
      have hc : c = '-' := by
        rcases Bool.and_eq_true_iff.mp hbc with ⟨h1, h2⟩
        exact beq_iff_eq.mp h2
      simp only [collapseHyphens, hbc, if_pos]
      rw [ih c, hb, hc]
    · simp [collapseHyphens, hbc]

theorem chain'_noHH_collapseHyphens : ∀ l : List Char, (collapseHyphens l).Chain' NoHH := by
  intro l
  induction l with
  | nil => simp [collapseHyphens]
  | cons a t ih =>
    cases t with
    | nil => simp [collapseHyphens]
    | cons b r =>
      by_cases hab : (a == '-' && b == '-') = true
      · simpa [collapseHyphens, hab] using ih
      · simp only [collapseHyphens, if_neg hab]
        rw [List.chain'_cons']
        refine ⟨?_, ih⟩
        intro y hy
        rw [collapseHyphens_cons_head? b r] at hy
        have hyb : b = y := by simpa using hy
        subst hyb
        intro hcon
        exact hab (by simp [hcon.1, hcon.2])

theorem collapseHyphens_eq_self {l : List Char} (h : l.Chain' NoHH) :
    collapseHyphens l = l := by
  induction l with
  | nil => rfl
  | cons a t ih =>
    cases t with
    | nil => rfl
    | cons b r =>
      rw [List.chain'_cons] at h
      have hab : (a == '-' && b == '-') = false := by
        rcases h with ⟨hnhh, _⟩
        by_contra hcon
        rw [Bool.not_eq_false, Bool.and_eq_true_iff] at hcon
        exact hnhh ⟨beq_iff_eq.mp hcon.1, beq_iff_eq.mp hcon.2⟩
      simp only [collapseHyphens, hab, Bool.false_eq_true, if_false]
      rw [ih h.2]

theorem stripHyphenEnds_subset (l : List Char) : stripHyphenEnds l ⊆ l := by
  intro c hc
  have h1 : c ∈ (l.dropWhile (· == '-')) :=
    (List.rdropWhile_prefix (· == '-') _).sublist.mem hc
  exact (List.dropWhile_suffix (· == '-')).sublist.mem h1

theorem stripHyphenEnds_chain' {l : List Char} (h : l.Chain' NoHH) :
    (stripHyphenEnds l).Chain' NoHH := by
  have h1 : ((l.dropWhile (· == '-'))).Chain' NoHH :=
    h.suffix (List.dropWhile_suffix _)
  exact h1.prefix (List.rdropWhile_prefix _ _)

theorem stripHyphenEnds_head? (l : List Char) :
    ∀ x ∈ (stripHyphenEnds l).head?, (x == '-') = false := by
  intro x hx
  have hne : (l.dropWhile (· == '-')).rdropWhile (· == '-') ≠ [] := by
    intro hnil
    unfold stripHyphenEnds at hx
    rw [hnil] at hx
    simp at hx
  rcases List.rdropWhile_prefix (· == '-') (l.dropWhile (· == '-')) with ⟨t, ht⟩
  have hdh : (l.dropWhile (· == '-')).head? = (stripHyphenEnds l).head? := by
    conv_lhs => rw [← ht]
    exact List.head?_append_of_ne_nil _ hne
  have hxd : x ∈ (l.dropWhile (· == '-')).head? := by rw [hdh]; exact hx
  have hnot := List.head?_dropWhile_not (· == '-') l
  revert hnot
  cases hh : (l.dropWhile (· == '-')).head? with
  | none => rw [hh] at hxd; simp at hxd
  | some y =>
    rw [hh] at hxd
    intro hnot
    have hxy : y = x := by simpa using hxd
    subst hxy
    simpa using hnot

theorem stripHyphenEnds_getLast (l : List Char) :
    ∀ hl : stripHyphenEnds l ≠ [], ((stripHyphenEnds l).getLast hl == '-') = false :=
  fun hl => Bool.eq_false_iff.mpr
    (List.rdropWhile_last_not (· == '-') (l.dropWhile (· == '-')) hl)

theorem stripHyphenEnds_eq_self {l : List Char}
    (hh : ∀ x ∈ l.head?, (x == '-') = false)
    (hl : ∀ h : l ≠ [], (l.getLast h == '-') = false) :
    stripHyphenEnds l = l := by
  unfold stripHyphenEnds
  have h1 : l.dropWhile (· == '-') = l := by
    cases l with
    | nil => rfl
    | cons a t => exact List.dropWhile_cons_of_neg (by simp [hh a rfl])
  rw [h1, List.rdropWhile_eq_self_iff]
  intro h
  simp [hl h]

theorem slugify_eq_self {l : List Char}
    (hslug : ∀ c ∈ l, isSlugChar c = true)
    (hchain : l.Chain' NoHH)
    (hh : ∀ x ∈ l.head?, (x == '-') = false)
    (hl : ∀ h : l ≠ [], (l.getLast h == '-') = false) :
    slugify l = l := by
  unfold slugify
  have hmap : l.map Char.toLower = l := by
    have := List.map_congr_left (f := Char.toLower) (g := id)
      (fun c hc => toLower_eq_self_of_isSlugChar (hslug c hc))
    rw [this, List.map_id]
  rw [hmap]
  have hnows : ∀ c ∈ l, isWs c = false := fun c hc => not_ws_of_isSlugChar (hslug c hc)
  have htrim : jsTrim l = l := by
    unfold jsTrim
    rw [dropWhile_eq_self_of_none hnows]
    exact rdropWhile_eq_self_of_none hnows
  rw [htrim, wsToHyphen_eq_self hnows, List.filter_eq_self.mpr hslug,
    collapseHyphens_eq_self hchain]
  exact stripHyphenEnds_eq_self hh hl

theorem slugify_mem_isSlugChar {c : Char} {s : List Char} (hc : c ∈ slugify s) :
    isSlugChar c = true := by
  unfold slugify at hc
  have h1 := stripHyphenEnds_subset _ hc
  have h2 := collapseHyphens_subset _ h1
  exact List.of_mem_filter h2

/-- C7 (main theorem): the slug generator is idempotent; applying
`slugify` to its own output returns the output unchanged. -/
theorem slugify_idempotent (s : List Char) : slugify (slugify s) = slugify s := by
  apply slugify_eq_self
  · exact fun c hc => slugify_mem_isSlugChar hc
  · exact stripHyphenEnds_chain' (chain'_noHH_collapseHyphens _)
  · exact stripHyphenEnds_head? _
  · exact stripHyphenEnds_getLast _

theorem utcCivil_fst (y m d : Nat) :
    (utcCivil y m d).1 = y ∨ (utcCivil y m d).1 = y + 1 := by
  unfold utcCivil
  split_ifs <;> simp

theorem utcCivil_snd_fst {y m d : Nat} (hm2 : m ≤ 12) (hd2 : d ≤ 31)
    (h : (utcCivil y m d).2.1 = m) : d ≤ daysInMonth y m := by
  unfold utcCivil at h
  split_ifs at h with h1 h2
  · exact h1
  · have : daysInMonth y 12 = 31 := by norm_num [daysInMonth]
    have hmeq : m = 12 := by simpa using h2
    subst hmeq
    omega
  · simp at h

/-- C6 (counterexample): the string "0099-01-01 00:00:00" matches the
format regex, every field is in its stated range, and year 99, January
1 is a real calendar date, so the claim asserts the parser succeeds
with those fields; the code instead fails, because `Date.UTC`
interprets year 99 as 1999 and the round-trip check then rejects the
date. -/
theorem parseHostawaySubmittedAt_year99_refutes :
    matchFormat ("0099-01-01 00:00:00".toList) = some ⟨99, 1, 1, 0, 0, 0⟩ ∧
    claimInRange ⟨99, 1, 1, 0, 0, 0⟩ ∧
    realCalendarDate ⟨99, 1, 1, 0, 0, 0⟩ ∧
    parseHostawaySubmittedAt ("0099-01-01 00:00:00".toList) =
      .error .invalidDate :=
  ⟨by rfl, by decide, by decide, by rfl⟩

/-- C6 (amended): for a string whose format matches, the parser
succeeds — returning a UTC instant whose year, month, day, hour,
minute and second equal the input's digit groups — exactly when the
fields are in range, the year is at least 100, and the year/month/day
form a real calendar date; for every string that fails the format
match the parser fails with a format error.  (The year ≥ 100
restriction is forced by `Date.UTC`'s two-digit-year rule: inputs with
year 0-99 are always rejected by the round-trip check even when they
name real calendar dates.) -/
theorem parseHostawaySubmittedAt_characterization :
    (∀ (s : List Char) (f : DateFields), matchFormat s = some f →
      (parseHostawaySubmittedAt s = .ok f ↔
        (claimInRange f ∧ 100 ≤ f.year ∧ realCalendarDate f))) ∧
    (∀ s : List Char, matchFormat s = none →
      parseHostawaySubmittedAt s = .error .badFormat) := by
  have hsome : ∀ (s : List Char) (f : DateFields), matchFormat s = some f →
      parseHostawaySubmittedAt s = parseChecked f := by
    intro s f hm
    unfold parseHostawaySubmittedAt
    rw [hm]
  constructor
  · intro s f hm
    rw [hsome s f hm]
    unfold parseChecked
    constructor
    · intro hok
      by_cases hA : f.month < 1 ∨ 12 < f.month
      · rw [if_pos hA] at hok; exact Except.noConfusion hok
      rw [if_neg hA] at hok
      by_cases hB : f.day < 1 ∨ 31 < f.day
      · rw [if_pos hB] at hok; exact Except.noConfusion hok
      rw [if_neg hB] at hok
      by_cases hC : 23 < f.hour
      · rw [if_pos hC] at hok; exact Except.noConfusion hok
      rw [if_neg hC] at hok
      by_cases hD : 59 < f.minute
      · rw [if_pos hD] at hok; exact Except.noConfusion hok
      rw [if_neg hD] at hok
      by_cases hE : 59 < f.second
      · rw [if_pos hE] at hok; exact Except.noConfusion hok
      rw [if_neg hE] at hok
      by_cases hF : (utcCivil (makeFullYear f.year) f.month f.day).1 = f.year ∧
          (utcCivil (makeFullYear f.year) f.month f.day).2.1 = f.month ∧
          (utcCivil (makeFullYear f.year) f.month f.day).2.2 = f.day
      swap
      · rw [if_neg hF] at hok; exact Except.noConfusion hok
      have hy : 100 ≤ f.year := by
        by_contra hy99
        have hfy : makeFullYear f.year = 1900 + f.year := by
          unfold makeFullYear; rw [if_pos]; omega
        have h1 := hF.1
        rw [hfy] at h1
        rcases utcCivil_fst (1900 + f.year) f.month f.day with h | h <;> omega
      have hfy : makeFullYear f.year = f.year := by
        unfold makeFullYear; rw [if_neg]; omega
      rw [hfy] at hF
      refine ⟨⟨by omega, by omega, by omega, by omega, by omega, by omega, by omega⟩,
        hy, ?_⟩
      exact utcCivil_snd_fst (by omega) (by omega) hF.2.1
    · rintro ⟨⟨h1, h2, h3, h4, h5, h6, h7⟩, hy, hcal⟩
      rw [if_neg (by omega), if_neg (by omega), if_neg (by omega),
        if_neg (by omega), if_neg (by omega)]
      have hfy : makeFullYear f.year = f.year := by
        unfold makeFullYear; rw [if_neg]; omega
      unfold realCalendarDate at hcal
      have hcivil : utcCivil f.year f.month f.day = (f.year, f.month, f.day) := by
        unfold utcCivil; rw [if_pos hcal]
      rw [hfy, hcivil, if_pos ⟨rfl, rfl, rfl⟩]
  · intro s hm
    unfold parseHostawaySubmittedAt
    rw [hm]

/-- C6 (witness): the amended characterization evaluated at the leap
day "2024-02-29 12:34:56", which the parser accepts with matching
fields. -/
theorem parseHostawaySubmittedAt_characterization_witness :
    parseHostawaySubmittedAt ("2024-02-29 12:34:56".toList) =
      .ok ⟨2024, 2, 29, 12, 34, 56⟩ :=
  (parseHostawaySubmittedAt_characterization.1
      ("2024-02-29 12:34:56".toList) ⟨2024, 2, 29, 12, 34, 56⟩ (by rfl)).mpr
    (by refine ⟨by decide, by decide, by decide⟩)

theorem countP_isApproved_partition (reviews : List PgReview) :
    reviews.countP (fun r => r.isApproved == some true) +
      reviews.countP (fun r => r.isApproved == some false) +
      reviews.countP (fun r => r.isApproved == none) = reviews.length := by
  induction reviews with
  | nil => rfl
  | cons r t ih =>
    rcases h : r.isApproved with _ | b
    · simp only [List.countP_cons, List.length_cons, h]
      simp
      omega
    · cases b <;>
        · simp only [List.countP_cons, List.length_cons, h]
          simp
          omega

/-- C1 (counterexample): the dashboard Lambda's approval statistics do
not count member reviews.  For a listing with one member review
("hostaway:1", no recorded state) and an approval store holding a true
entry for an id outside the member set, the handler reports
approvedCount 1 and pendingCount 0, while the claimed member-wise
counters are approved 0, rejected 0, pending 1. -/
theorem dashboardLambda_stats_refute :
    DashboardLambda.approvedCount [("ghost", true)] = 1 ∧
    DashboardLambda.pendingCount 1 [("ghost", true)] = 0 ∧
    specApprovedCount ["hostaway:1"] [("ghost", true)] = 0 ∧
    specRejectedCount ["hostaway:1"] [("ghost", true)] = 0 ∧
    specPendingCount ["hostaway:1"] [("ghost", true)] = 1 := by
  refine ⟨rfl, rfl, rfl, rfl, rfl⟩

/-- C1 (amended): in the PostgreSQL dashboard route the three counters
partition the member count exactly, counting member rows whose
is_approved column is true, false, and null respectively (the state
lives on the row, so no store entry outside the member set can
exist).  The dashboard Lambda instead emits only approvedCount and
pendingCount: approvedCount is the number of true entries in the
listing's approval-store map — including entries for ids outside the
member set — and pendingCount is reviewCount minus that number, so
only the two-counter identity approvedCount + pendingCount =
reviewCount holds. -/
theorem approvalStats_characterization :
    (∀ reviews : List PgReview,
      (DashboardRoutePg.approvedCount reviews : Int) +
          DashboardRoutePg.pendingCount reviews +
          DashboardRoutePg.rejectedCount reviews = reviews.length ∧
      DashboardRoutePg.approvedCount reviews =
        reviews.countP (fun r => r.isApproved == some true) ∧
      DashboardRoutePg.rejectedCount reviews =
        reviews.countP (fun r => r.isApproved == some false) ∧
      DashboardRoutePg.pendingCount reviews =
        (reviews.countP (fun r => r.isApproved == none) : Int)) ∧
    (∀ (totalReviews : Nat) (approvals : List (String × Bool)),
      (DashboardLambda.approvedCount approvals : Int) +
          DashboardLambda.pendingCount totalReviews approvals = totalReviews ∧
      DashboardLambda.approvedCount approvals =
        (approvals.filter (fun e => e.2)).length) := by
  constructor
  · intro reviews
    have hpart := countP_isApproved_partition reviews
    refine ⟨?_, rfl, rfl, ?_⟩
    · unfold DashboardRoutePg.pendingCount DashboardRoutePg.approvedCount
        DashboardRoutePg.rejectedCount
      omega
    · unfold DashboardRoutePg.pendingCount DashboardRoutePg.approvedCount
        DashboardRoutePg.rejectedCount
      omega
  · intro totalReviews approvals
    refine ⟨?_, rfl⟩
    unfold DashboardLambda.pendingCount DashboardLambda.approvedCount
    omega

/-- C3 (counterexample): the PostgreSQL-only dashboard route averages
over all member reviews with null coerced to 0.  A group of two
reviews rated 4 and null yields avgOverallRating 2, while the claimed
mean over the non-null ratings is 4. -/
theorem dashboardPg_avg_refutes :
    DashboardRoutePg.avgOverallRating
        [pgRev "hostaway:1" (some 4) none, pgRev "hostaway:2" none none] = some 2 ∧
    specMeanNonNull
        (([pgRev "hostaway:1" (some 4) none, pgRev "hostaway:2" none none]).map
          (fun r => r.overallRating)) = some 4 := by
  constructor
  · show some ((4 + (0 + 0)) / 2) = some 2
    norm_num
  · show some ((4 + 0) / 1) = some 4
    norm_num

/-- C3 (amended): the repository aggregates a listing's average rating
three ways.  `queryListingKPIs` returns exactly the mean over the
reviews with a non-null rating (null when there are none);
`computeListingGroups` returns that same mean rounded to two decimal
places; the PostgreSQL-only dashboard route instead sums over ALL
member reviews, with null ratings contributing 0, divides by the total
member count, and is null only for an empty group. -/
theorem avgOverallRating_characterization :
    (∀ reviews : List NormalizedReview,
      ReviewsRepo.avgOverallRating reviews =
        specMeanNonNull (reviews.map (fun r => r.overallRating))) ∧
    (∀ reviews : List NormalizedReview,
      ReviewsHostaway.avgOverallRating reviews =
        (specMeanNonNull (reviews.map (fun r => r.overallRating))).map round2) ∧
    (∀ reviews : List PgReview, reviews ≠ [] →
      DashboardRoutePg.avgOverallRating reviews =
        some ((reviews.map (fun r => r.overallRating.getD 0)).sum / reviews.length)) := by
  refine ⟨?_, ?_, ?_⟩
  · intro reviews
    unfold ReviewsRepo.avgOverallRating specMeanNonNull
    rw [List.filterMap_map]
    rfl
  · intro reviews
    unfold ReviewsHostaway.avgOverallRating specMeanNonNull
    rw [List.filterMap_map]
    by_cases h : (reviews.filterMap (fun r => r.overallRating)).length > 0
    · rw [if_pos h, if_pos (by simpa using h)]
      rfl
    · rw [if_neg h, if_neg (by simpa using h)]
      rfl
  · intro reviews h
    unfold DashboardRoutePg.avgOverallRating
    rw [if_pos]
    simpa [List.length_pos] using h

/-- C3 (witness): the amended characterization applied to the concrete
two-review group rated 4 and null in the dashboard route. -/
theorem avgOverallRating_characterization_witness :
    DashboardRoutePg.avgOverallRating
        [pgRev "hostaway:1" (some 4) none, pgRev "hostaway:2" none none] =
      some ((([pgRev "hostaway:1" (some 4) none,
        pgRev "hostaway:2" none none]).map (fun r => r.overallRating.getD 0)).sum / 2) :=
  avgOverallRating_characterization.2.2
    [pgRev "hostaway:1" (some 4) none, pgRev "hostaway:2" none none] (by simp)

/-- C10 (main theorem): in the dashboard Lambda's step-3 filtering, a
listing whose avgOverallRating is null is never excluded by the
minRating filter: for such a group, membership in the filtered result
with any minRating supplied coincides with membership when no
minRating is supplied. -/
theorem minRating_filter_keeps_null_avg (mr : ℚ) (categoryKey : Option String)
    (groups : List ListingGroup) (g : ListingGroup)
    (hnull : g.kpis.avgOverallRating = none) :
    (g ∈ DashboardLambda.filterListings (some mr) categoryKey groups ↔
      g ∈ DashboardLambda.filterListings none categoryKey groups) := by
  unfold DashboardLambda.filterListings
  have h1 : DashboardLambda.passesMinRating (some mr) g = true := by
    unfold DashboardLambda.passesMinRating
    rw [hnull]
  have h2 : DashboardLambda.passesMinRating none g = true := rfl
  simp only [List.mem_filter, h1, h2, Bool.true_and]

/-- C10 (witness): the theorem applied to a concrete unrated listing
group and minRating 4. -/
theorem minRating_filter_keeps_null_avg_witness :
    (⟨"l1", "L1", ⟨1, none, []⟩, []⟩ : ListingGroup) ∈
        DashboardLambda.filterListings (some 4) none
          [⟨"l1", "L1", ⟨1, none, []⟩, []⟩] ↔
      (⟨"l1", "L1", ⟨1, none, []⟩, []⟩ : ListingGroup) ∈
        DashboardLambda.filterListings none none
          [⟨"l1", "L1", ⟨1, none, []⟩, []⟩] :=
  minRating_filter_keeps_null_avg 4 none
    [⟨"l1", "L1", ⟨1, none, []⟩, []⟩] ⟨"l1", "L1", ⟨1, none, []⟩, []⟩ rfl

theorem mem_approvedReviewIds {rid : String} {approvals : List (String × Bool)} :
    rid ∈ approvedReviewIds approvals ↔ (rid, true) ∈ approvals := by
  unfold approvedReviewIds
  simp only [List.mem_map, List.mem_filter]
  constructor
  · rintro ⟨⟨a, b⟩, ⟨hmem, hb⟩, rfl⟩
    simp only at hb
    rw [hb] at hmem
    exact hmem
  · intro hmem
    exact ⟨(rid, true), ⟨hmem, rfl⟩, rfl⟩

theorem contains_approvedReviewIds (rid : String) (approvals : List (String × Bool)) :
    (approvedReviewIds approvals).contains rid = approvals.contains (rid, true) := by
  simp only [List.elem_eq_mem]
  exact decide_eq_decide.mpr mem_approvedReviewIds

/-- C2 (counterexample): the web public-listings route serves the
listing_kpis average, computed over ALL of the listing's reviews.  A
listing with an approved review rated 5 and a pending review rated 1
is published with avgRating 3, while the claimed mean over the
approved subset is 5. -/
theorem publicRoute_avg_refutes :
    listingKpisAvg [some 5, some 1] = some 3 ∧
    PublicListingsRoute.GET [kpiRow1] store1 = [pub1] ∧
    specApprovedOnlyAvg
        [nRev "hostaway:1" "l1" (some 5), nRev "hostaway:2" "l1" (some 1)]
        [("hostaway:1", true)] = some 5 ∧
    (some (3 : ℚ)) ≠ some 5 := by
  refine ⟨?_, ?_, ?_, by norm_num⟩
  · simp [listingKpisAvg]
    norm_num
  · simp [PublicListingsRoute.GET, PublicListingsRoute.emitRow,
      approvedReviewIds, kpiRow1, store1, pub1]
  · simp [specApprovedOnlyAvg, specMeanNonNull, nRev, List.filter_cons]

/-- C2 (amended): only the Lambda public-listings handler computes the
public average over the approved subset: its avgRating is the mean of
the non-null ratings of exactly the member reviews with a true store
entry, rounded to two decimals (null when no approved review is
rated), so pending and rejected reviews never contribute there.  The
web route instead passes through the listing_kpis view's average,
which is the SQL AVG over ALL of the listing's reviews regardless of
approval state. -/
theorem publicAvgRating_characterization :
    (∀ (reviews : List NormalizedReview) (approvals : List (String × Bool)),
      PublicListingsLambda.avgRating reviews approvals =
        (specApprovedOnlyAvg reviews approvals).map round2) ∧
    (∀ (rows : List KpiRow) (store : String → List (String × Bool))
        (e : PublicListing), e ∈ PublicListingsRoute.GET rows store →
      ∃ row ∈ rows, e.listingId = row.listingId ∧ e.avgRating = row.avgRating) ∧
    (∀ ratings : List (Option ℚ), listingKpisAvg ratings = specMeanNonNull ratings) := by
  refine ⟨?_, ?_, fun _ => rfl⟩
  · intro reviews approvals
    unfold PublicListingsLambda.avgRating specApprovedOnlyAvg specMeanNonNull
    have hfil : reviews.filter
          (fun r => (approvedReviewIds approvals).contains r.reviewId) =
        reviews.filter (fun r => approvals.contains (r.reviewId, true)) :=
      List.filter_congr (fun r _ => contains_approvedReviewIds r.reviewId approvals)
    rw [hfil, List.filterMap_map, Function.id_comp]
    by_cases h : 0 < ((reviews.filter
        (fun r => approvals.contains (r.reviewId, true))).filterMap
          (fun r => r.overallRating)).length
    · rw [if_pos h, if_pos h]
      rfl
    · rw [if_neg h, if_neg h]
      rfl
  · intro rows store e he
    unfold PublicListingsRoute.GET at he
    rw [List.mem_filterMap] at he
    obtain ⟨row, hrow, hemit⟩ := he
    refine ⟨row, hrow, ?_⟩
    unfold PublicListingsRoute.emitRow at hemit
    by_cases h : 0 < (approvedReviewIds (store row.listingId)).length
    · rw [if_pos h] at hemit
      cases hemit
      exact ⟨rfl, rfl⟩
    · rw [if_neg h] at hemit
      exact Option.noConfusion hemit

/-- C2 (witness): the web-route conjunct of the characterization
applied to the concrete listing of the counterexample: the published
entry carries the row's listing-wide average. -/
theorem publicAvgRating_characterization_witness :
    ∃ row ∈ [kpiRow1], pub1.listingId = row.listingId ∧
      pub1.avgRating = row.avgRating :=
  publicAvgRating_characterization.2.1 [kpiRow1] store1 pub1
    (by simp [PublicListingsRoute.GET, PublicListingsRoute.emitRow,
      approvedReviewIds, kpiRow1, store1, pub1])

/-- C8 (counterexample): a listing whose member review has no approval
state is still published by the Lambda handler when the approval store
holds a true entry for an id outside the member set: the emitted entry
reports approvedReviewCount 1 although the approved member subset is
empty. -/
theorem publicIndex_refutes :
    PublicListingsLambda.handler [group1] storeGhost =
      [{ listingId := "l1", listingName := "L1", approvedReviewCount := 1,
         avgRating := none }] ∧
    group1.reviews.filter
        (fun r => (storeGhost group1.listingId).contains (r.reviewId, true)) = [] := by
  constructor
  · simp [PublicListingsLambda.handler, PublicListingsLambda.emitListing,
      PublicListingsLambda.avgRating, approvedReviewIds, nRev, group1, storeGhost]
  · simp [nRev, group1, storeGhost]

/-- C8 (amended): a listing group is emitted into the public index iff
its approval-store map has at least one true entry (and likewise for
each listing_kpis row in the web route); every emitted entry has
approvedReviewCount at least 1, the count being the number of true
store entries.  Only under the additional closure condition that every
true store entry names a member review does emission coincide with the
claimed criterion "the approved member subset is non-empty". -/
theorem publicIndex_characterization :
    (∀ (store : String → List (String × Bool)) (g : ListingGroup),
      (PublicListingsLambda.emitListing store g).isSome ↔
        0 < (approvedReviewIds (store g.listingId)).length) ∧
    (∀ (store : String → List (String × Bool)) (g : ListingGroup),
      (∀ rid, (rid, true) ∈ store g.listingId →
        ∃ r ∈ g.reviews, r.reviewId = rid) →
      ((PublicListingsLambda.emitListing store g).isSome ↔
        ∃ r ∈ g.reviews, (r.reviewId, true) ∈ store g.listingId)) ∧
    (∀ (store : String → List (String × Bool)) (g : ListingGroup)
        (e : PublicListing), PublicListingsLambda.emitListing store g = some e →
      1 ≤ e.approvedReviewCount) ∧
    (∀ (store : String → List (String × Bool)) (row : KpiRow),
      (PublicListingsRoute.emitRow store row).isSome ↔
        0 < (approvedReviewIds (store row.listingId)).length) := by
  have hemit : ∀ (store : String → List (String × Bool)) (g : ListingGroup),
      (PublicListingsLambda.emitListing store g).isSome ↔
        0 < (approvedReviewIds (store g.listingId)).length := by
    intro store g
    unfold PublicListingsLambda.emitListing
    by_cases h : 0 < (approvedReviewIds (store g.listingId)).length
    · rw [if_pos h]
      simpa using h
    · rw [if_neg h]
      simpa using h
  refine ⟨hemit, ?_, ?_, ?_⟩
  · intro store g hclosed
    rw [hemit store g]
    constructor
    · intro hpos
      obtain ⟨rid, hrid⟩ := List.exists_mem_of_length_pos hpos
      obtain ⟨r, hr, hreq⟩ := hclosed rid (mem_approvedReviewIds.mp hrid)
      exact ⟨r, hr, hreq ▸ mem_approvedReviewIds.mp hrid⟩
    · rintro ⟨r, hr, hstore⟩
      exact List.length_pos_of_mem (mem_approvedReviewIds.mpr hstore)
  · intro store g e he
    unfold PublicListingsLambda.emitListing at he
    by_cases h : 0 < (approvedReviewIds (store g.listingId)).length
    · rw [if_pos h] at he
      cases he
      exact h
    · rw [if_neg h] at he
      exact Option.noConfusion he
  · intro store row
    unfold PublicListingsRoute.emitRow
    by_cases h : 0 < (approvedReviewIds (store row.listingId)).length
    · rw [if_pos h]
      simpa using h
    · rw [if_neg h]
      simpa using h

/-- C8 (witness): the closure-conditioned conjunct evaluated at a
store whose single true entry names the listing's one member review:
the listing is emitted and the approved member subset is non-empty. -/
theorem publicIndex_characterization_witness :
    (PublicListingsLambda.emitListing store1 group1).isSome ↔
      ∃ r ∈ group1.reviews, (r.reviewId, true) ∈ store1 group1.listingId :=
  publicIndex_characterization.2.1 store1 group1
    (by
      intro rid hmem
      refine ⟨nRev "hostaway:1" "l1" (some 5), by simp [group1], ?_⟩
      have h1 : rid = "hostaway:1" := by simpa [store1] using hmem
      simp [nRev, h1])

/-- C4 (counterexample): the approval Lambda handler never consults the
reviews table.  For a request naming a review id that exists in no
database (the reviews table plays no part in the handler at all), it
answers ok and persists the approval state — here with the audit
insert failing, as the audit table's foreign key to reviews would make
it — whereas the claim requires a not-found failure with no approval
state and no audit record persisted. -/
theorem approveLambda_refutes :
    (ApproveLambda.handler (fun _ => none) [] true false
        "hostaway:99" "l1" true "203.0.113.7").1 = .ok "hostaway:99" "l1" true ∧
    (ApproveLambda.handler (fun _ => none) [] true false
        "hostaway:99" "l1" true "203.0.113.7").2.1 ("l1", "hostaway:99") = some true ∧
    (ApproveLambda.handler (fun _ => none) [] true false
        "hostaway:99" "l1" true "203.0.113.7").2.2 = [] := by
  refine ⟨by rfl, ?_, by rfl⟩
  simp [ApproveLambda.handler, putApproval, isWs]

/-- C4 (amended): only the Next.js approve route validates the request
against the reviews table: an unknown reviewId yields a 404 and a
listing mismatch yields a 400, in both cases leaving the approval
store and the audit log untouched.  The approval Lambda handler
performs no such validation: for every well-formed request (reviewId
present, listingId non-blank) whose store write succeeds, it answers
ok and persists the approval state regardless of what the reviews
table contains. -/
theorem approve_validation_characterization :
    (∀ (db : String → Option ReviewRow) (store : ApprovalStore)
        (audit : List AuditRow) (stateOk auditOk : Bool)
        (reviewId listingId : String) (isApproved : Bool),
      listingId ≠ "" → db reviewId = none →
      ApproveRoute.POST db store audit stateOk auditOk reviewId listingId
          isApproved = (.notFound, store, audit)) ∧
    (∀ (db : String → Option ReviewRow) (store : ApprovalStore)
        (audit : List AuditRow) (stateOk auditOk : Bool)
        (reviewId listingId : String) (isApproved : Bool) (review : ReviewRow),
      listingId ≠ "" → db reviewId = some review →
      review.listingId ≠ listingId →
      ApproveRoute.POST db store audit stateOk auditOk reviewId listingId
          isApproved = (.mismatch, store, audit)) ∧
    (∀ (store : ApprovalStore) (audit : List AuditRow) (auditOk : Bool)
        (reviewId listingId : String) (isApproved : Bool) (actor : String),
      reviewId ≠ "" → listingId.data.all isWs = false →
      (ApproveLambda.handler store audit true auditOk reviewId listingId
          isApproved actor).1 = .ok reviewId listingId isApproved ∧
      (ApproveLambda.handler store audit true auditOk reviewId listingId
          isApproved actor).2.1 = putApproval store listingId reviewId isApproved) := by
  refine ⟨?_, ?_, ?_⟩
  · intro db store audit stateOk auditOk reviewId listingId isApproved hlid hdb
    simp [ApproveRoute.POST, hlid, hdb]
  · intro db store audit stateOk auditOk reviewId listingId isApproved review
      hlid hdb hmis
    simp [ApproveRoute.POST, ApproveRoute.POSTvalidated, hlid, hdb, hmis]
  · intro store audit auditOk reviewId listingId isApproved actor hrid hblank
    constructor <;> simp [ApproveLambda.handler, hrid, hblank]

/-- C4 (witness): the amended theorem's conjuncts evaluated at
concrete requests: a not-found on the web route for an empty reviews
table, together with the Lambda's unconditional ok and store write. -/
theorem approve_validation_characterization_witness :
    ApproveRoute.POST (fun _ => none) (fun _ => none) [] true true
        "hostaway:99" "l1" true = (.notFound, fun _ => none, []) ∧
    (ApproveLambda.handler (fun _ => none) [] true true
        "hostaway:9" "l2" false "203.0.113.7").1 = .ok "hostaway:9" "l2" false :=
  ⟨approve_validation_characterization.1 (fun _ => none) (fun _ => none) []
      true true "hostaway:99" "l1" true (by decide) rfl,
    (approve_validation_characterization.2.2 (fun _ => none) [] true
      "hostaway:9" "l2" false "203.0.113.7" (by decide) (by decide)).1⟩

/-- C5 (main theorem): on both approval write paths the authoritative
state write precedes the audit append, and a failed audit append never
rolls the state back.  When the store write succeeds and the audit
append fails, the web route answers 500 — and the Lambda still answers
ok — with the approval persisted exactly as written and the audit log
unchanged; and on either path, whenever the audit log grows at all,
the store already holds the newly written state. -/
theorem approval_audit_no_rollback :
    (∀ (db : String → Option ReviewRow) (store : ApprovalStore)
        (audit : List AuditRow) (reviewId listingId : String)
        (isApproved : Bool) (review : ReviewRow),
      listingId ≠ "" → db reviewId = some review →
      review.listingId = listingId →
      ApproveRoute.POST db store audit true false reviewId listingId isApproved =
        (.serverErr, putApproval store listingId reviewId isApproved, audit)) ∧
    (∀ (db : String → Option ReviewRow) (store : ApprovalStore)
        (audit : List AuditRow) (stateOk auditOk : Bool)
        (reviewId listingId : String) (isApproved : Bool),
      (ApproveRoute.POST db store audit stateOk auditOk reviewId listingId
          isApproved).2.2 ≠ audit →
      (ApproveRoute.POST db store audit stateOk auditOk reviewId listingId
          isApproved).2.1 = putApproval store listingId reviewId isApproved) ∧
    (∀ (store : ApprovalStore) (audit : List AuditRow)
        (reviewId listingId : String) (isApproved : Bool) (actor : String),
      reviewId ≠ "" → listingId.data.all isWs = false →
      ApproveLambda.handler store audit true false reviewId listingId
          isApproved actor =
        (.ok reviewId listingId isApproved,
          putApproval store listingId reviewId isApproved, audit)) ∧
    (∀ (store : ApprovalStore) (audit : List AuditRow) (stateOk auditOk : Bool)
        (reviewId listingId : String) (isApproved : Bool) (actor : String),
      (ApproveLambda.handler store audit stateOk auditOk reviewId listingId
          isApproved actor).2.2 ≠ audit →
      (ApproveLambda.handler store audit stateOk auditOk reviewId listingId
          isApproved actor).2.1 = putApproval store listingId reviewId isApproved) := by
  refine ⟨?_, ?_, ?_, ?_⟩
  · intro db store audit reviewId listingId isApproved review hlid hdb hmatch
    simp [ApproveRoute.POST, ApproveRoute.POSTvalidated, hlid, hdb, hmatch]
  · intro db store audit stateOk auditOk reviewId listingId isApproved haud
    by_cases h1 : listingId = ""
    · have hP : ApproveRoute.POST db store audit stateOk auditOk reviewId
          listingId isApproved = (.badRequest, store, audit) := by
        unfold ApproveRoute.POST
        rw [if_pos h1]
      rw [hP] at haud
      exact absurd rfl haud
    cases hdb : db reviewId with
    | none =>
      have hP : ApproveRoute.POST db store audit stateOk auditOk reviewId
          listingId isApproved = (.notFound, store, audit) := by
        unfold ApproveRoute.POST
        rw [if_neg h1, hdb]
      rw [hP] at haud
      exact absurd rfl haud
    | some review =>
      have hP : ApproveRoute.POST db store audit stateOk auditOk reviewId
          listingId isApproved = ApproveRoute.POSTvalidated store audit stateOk
            auditOk reviewId listingId isApproved review := by
        unfold ApproveRoute.POST
        rw [if_neg h1, hdb]
      rw [hP] at haud ⊢
      unfold ApproveRoute.POSTvalidated at haud ⊢
      by_cases h2 : review.listingId ≠ listingId
      · rw [if_pos h2] at haud
        exact absurd rfl haud
      rw [if_neg h2] at haud ⊢
      by_cases h3 : stateOk = false
      · rw [if_pos h3] at haud
        exact absurd rfl haud
      rw [if_neg h3] at haud ⊢
      by_cases h4 : auditOk = true
      · rw [if_pos h4]
      · rw [if_neg h4] at haud
        exact absurd rfl haud
  · intro store audit reviewId listingId isApproved actor hrid hblank
    simp [ApproveLambda.handler, hrid, hblank]
  · intro store audit stateOk auditOk reviewId listingId isApproved actor haud
    unfold ApproveLambda.handler at haud ⊢
    by_cases h1 : reviewId = ""
    · rw [if_pos h1] at haud
      exact absurd rfl haud
    rw [if_neg h1] at haud ⊢
    by_cases h2 : listingId.data.all isWs = true
    · rw [if_pos h2] at haud
      exact absurd rfl haud
    rw [if_neg h2] at haud ⊢
    by_cases h3 : stateOk = false
    · rw [if_pos h3] at haud
      exact absurd rfl haud
    rw [if_neg h3] at haud ⊢

/-- C5 (witness): the no-rollback conjuncts evaluated at a concrete
approval whose audit insert fails: the web route answers 500 and the
Lambda answers ok, both with the state written and the audit log
still empty. -/
theorem approval_audit_no_rollback_witness :
    ApproveRoute.POST (fun _ => some (freshRow 0 (nRev "hostaway:1" "l1" (some 5))))
        (fun _ => none) [] true false "hostaway:1" "l1" true =
      (.serverErr, putApproval (fun _ => none) "l1" "hostaway:1" true, []) ∧
    ApproveLambda.handler (fun _ => none) [] true false
        "hostaway:1" "l1" true "203.0.113.7" =
      (.ok "hostaway:1" "l1" true,
        putApproval (fun _ => none) "l1" "hostaway:1" true, []) :=
  ⟨approval_audit_no_rollback.1 (fun _ => some (freshRow 0 (nRev "hostaway:1" "l1" (some 5))))
      (fun _ => none) [] "hostaway:1" "l1" true
      (freshRow 0 (nRev "hostaway:1" "l1" (some 5))) (by decide) rfl (by rfl),
    approval_audit_no_rollback.2.2.1 (fun _ => none) [] "hostaway:1" "l1" true
      "203.0.113.7" (by decide) (by decide)⟩

/-- C9 (main theorem): upserting a review whose reviewId already
exists keeps the stored reviewId, submission timestamp, listingId,
listingName, guestName (as well as source, hostaway id, type and
created_at) unchanged, while status, review text, overall rating and
the raw payload take the incoming values; upserting a single-element
batch is exactly this one conflict update. -/
theorem upsertOne_conflict_frame (now : Nat) (db : Db) (r : NormalizedReview)
    (old : ReviewRow) (h : db.reviews r.reviewId = some old) :
    (∃ updated : ReviewRow,
      (upsertOne now db r).reviews r.reviewId = some updated ∧
      updated.reviewId = old.reviewId ∧
      updated.submittedAt = old.submittedAt ∧
      updated.listingId = old.listingId ∧
      updated.listingName = old.listingName ∧
      updated.guestName = old.guestName ∧
      updated.source = old.source ∧
      updated.hostawayId = old.hostawayId ∧
      updated.type = old.type ∧
      updated.createdAt = old.createdAt ∧
      updated.status = r.status ∧
      updated.publicReview = r.publicReview ∧
      updated.overallRating = r.overallRating ∧
      updated.raw = r) ∧
    upsertReviews now db [r] = upsertOne now db r := by
  constructor
  · refine ⟨{ old with
        status := r.status,
        publicReview := r.publicReview,
        overallRating := r.overallRating,
        raw := r,
        updatedAt := now }, ?_, rfl, rfl, rfl, rfl, rfl, rfl, rfl, rfl, rfl,
      rfl, rfl, rfl, rfl⟩
    unfold upsertOne
    simp [h]
  · rfl

/-- C9 (witness): the conflict-frame theorem applied to a database
holding one stored review and an incoming review with the same id but
a new status, text and rating. -/
theorem upsertOne_conflict_frame_witness :
    ∃ updated : ReviewRow,
      (upsertOne 1
          { reviews := fun k =>
              if k = "hostaway:1" then some (freshRow 0 (nRev "hostaway:1" "l1" (some 5)))
              else none,
            categories := fun _ => [] }
          (nRev "hostaway:1" "l1" (some 3))).reviews
          (nRev "hostaway:1" "l1" (some 3)).reviewId = some updated ∧
      updated.reviewId = (freshRow 0 (nRev "hostaway:1" "l1" (some 5))).reviewId ∧
      updated.submittedAt = (freshRow 0 (nRev "hostaway:1" "l1" (some 5))).submittedAt ∧
      updated.listingId = (freshRow 0 (nRev "hostaway:1" "l1" (some 5))).listingId ∧
      updated.listingName = (freshRow 0 (nRev "hostaway:1" "l1" (some 5))).listingName ∧
      updated.guestName = (freshRow 0 (nRev "hostaway:1" "l1" (some 5))).guestName ∧
      updated.source = (freshRow 0 (nRev "hostaway:1" "l1" (some 5))).source ∧
      updated.hostawayId = (freshRow 0 (nRev "hostaway:1" "l1" (some 5))).hostawayId ∧
      updated.type = (freshRow 0 (nRev "hostaway:1" "l1" (some 5))).type ∧
      updated.createdAt = (freshRow 0 (nRev "hostaway:1" "l1" (some 5))).createdAt ∧
      updated.status = (nRev "hostaway:1" "l1" (some 3)).status ∧
      updated.publicReview = (nRev "hostaway:1" "l1" (some 3)).publicReview ∧
      updated.overallRating = (nRev "hostaway:1" "l1" (some 3)).overallRating ∧
      updated.raw = nRev "hostaway:1" "l1" (some 3) :=
  (upsertOne_conflict_frame 1
    { reviews := fun k =>
        if k = "hostaway:1" then some (freshRow 0 (nRev "hostaway:1" "l1" (some 5)))
        else none,
      categories := fun _ => [] }
    (nRev "hostaway:1" "l1" (some 3))
    (freshRow 0 (nRev "hostaway:1" "l1" (some 5))) (by rfl)).1

end FlexReviews
